import Mathlib

/-!
Shallow embedding of the retry-with-backoff executor and the error
classification utilities of the email-service repository
(src/utils/errors.ts and src/utils/retry.ts), together with theorems
settling the specification claims about them.

JavaScript numbers are modelled as exact rationals, records as
association lists with spread (right-biased) semantics, and arbitrary
thrown JavaScript values as the inductive type `JSVal`.
-/

namespace EmailRetry

/-- Error categories of the EmailError class hierarchy in errors.ts.
Each concrete subclass fixes a code string and a retryable flag. -/
inductive ErrorCode where
  | smtpConfig
  | smtpConnection
  | smtpAuth
  | emailValidation
  | templateNotFound
  | templateRender
  | emailSend
  | rateLimit
  | attachment
deriving DecidableEq, Repr

/-- The fixed `retryable` flag of each EmailError subclass. -/
def ErrorCode.retryable : ErrorCode → Bool
  | .smtpConnection => true
  | .emailSend => true
  | .rateLimit => true
  | _ => false

/-- The constructor (class) name of each EmailError subclass, used by
JavaScript String() conversion of an error. -/
def ErrorCode.className : ErrorCode → String
  | .smtpConfig => "SMTPConfigurationError"
  | .smtpConnection => "SMTPConnectionError"
  | .smtpAuth => "SMTPAuthenticationError"
  | .emailValidation => "EmailValidationError"
  | .templateNotFound => "TemplateNotFoundError"
  | .templateRender => "TemplateRenderError"
  | .emailSend => "EmailSendError"
  | .rateLimit => "RateLimitError"
  | .attachment => "AttachmentError"

/-- Values stored in a diagnostic context record (Record<string, any>). -/
inductive CtxValue where
  | nat (n : ℕ)
  | str (s : String)
  | strList (l : List String)
  | other (id : ℕ)
deriving DecidableEq, Repr

/-- A JavaScript object used as a diagnostic context: an association
list of string keys handled with object-spread semantics. -/
abbrev JSRecord : Type := List (String × CtxValue)

/-- Property lookup on a record. A record is kept as the list of
key-value assignments in insertion order, where a later assignment to
a key overwrites an earlier one; the lookup therefore returns the
last binding of the key. -/
def getRec (r : JSRecord) (k : String) : Option CtxValue :=
  (List.find? (fun p => p.1 == k) r.reverse).map (fun p => p.2)

/-- Object spread combination of two records: the JavaScript literal
spreading the fields of `a` and then the fields of `b` assigns the
fields in that order, so the bindings of `b` win on any key
conflict. -/
def spreadRec (a b : JSRecord) : JSRecord :=
  a ++ b

/-- An arbitrary JavaScript value that an operation may throw:
an EmailError instance, a plain Error instance, or a non-Error value
(string, number, null, undefined, plain object with an optional
message property). -/
inductive JSVal where
  | vEmailError (code : ErrorCode) (message : String) (cause : Option JSVal)
      (context : Option JSRecord)
  | vError (message : String)
  | vStr (s : String)
  | vNum (n : ℤ)
  | vNull
  | vUndefined
  | vObj (message : Option JSVal)

/-- List-of-characters test of whether the second list is an initial
segment of the first; helper for substring containment. -/
def charsStart : List Char → List Char → Bool
  | _, [] => true
  | [], _ :: _ => false
  | a :: as, b :: bs => a == b && charsStart as bs

/-- List-of-characters test of whether the second list occurs
contiguously inside the first. -/
def charsContain : List Char → List Char → Bool
  | _, [] => true
  | [], _ :: _ => false
  | a :: as, b :: bs => charsStart (a :: as) (b :: bs) || charsContain as (b :: bs)

/-- JavaScript String.prototype.includes: substring containment. -/
def jsIncludes (s pat : String) : Bool :=
  charsContain s.data pat.data

/-- JavaScript String.prototype.toLowerCase (over the ASCII range):
lower-cases every character of the string. -/
def jsToLower (s : String) : String :=
  ⟨s.data.map Char.toLower⟩

/-- JavaScript String() conversion of a value, as used by
new Error(String(error)) and by the unknown branch of wrapError. -/
def jsToString : JSVal → String
  | .vEmailError c m _ _ => c.className ++ ": " ++ m
  | .vError m => "Error: " ++ m
  | .vStr s => s
  | .vNum n => toString n
  | .vNull => "null"
  | .vUndefined => "undefined"
  | .vObj _ => "[object Object]"

/-- Whether the value is an instance of the EmailError class. -/
def isClassifiedError : JSVal → Bool
  | .vEmailError _ _ _ _ => true
  | _ => false

/-- Whether the value is an instance of the built-in Error class
(EmailError extends Error). -/
def isJsError : JSVal → Bool
  | .vEmailError _ _ _ _ => true
  | .vError _ => true
  | _ => false

/-- The message property of a value, provided the value is an object
carrying one; mirrors the guard sequence of isRetryableError in
errors.ts (truthy, typeof object, message property present). -/
def jsMessageField : JSVal → Option JSVal
  | .vEmailError _ m _ _ => some (.vStr m)
  | .vError m => some (.vStr m)
  | .vObj (some mv) => some mv
  | _ => none

/-- Known transient nodemailer signatures from errors.ts. -/
def transientMessages : List String :=
  ["ETIMEDOUT", "ECONNRESET", "ENOTFOUND", "ECONNREFUSED", "timeout", "network"]

/-- Embedding of isRetryableError from errors.ts: EmailError instances
report their category flag; an object whose message property is a
string is retryable when the lower-cased message contains one of the
lower-cased transient signatures; every other value is not retryable. -/
def isRetryableError : JSVal → Bool
  | .vEmailError c _ _ _ => c.retryable
  | v =>
    match jsMessageField v with
    | some (.vStr m) =>
      List.any transientMessages (fun t => jsIncludes (jsToLower m) (jsToLower t))
    | _ => false

/-- The result of wrapError: the data of an EmailError instance. -/
structure WrappedError where
  code : ErrorCode
  message : String
  cause : Option JSVal
  context : Option JSRecord

/-- Embedding of wrapError from errors.ts: EmailError instances pass
through unchanged; generic Error instances are categorized by
lower-cased message substring (only "auth" and "connect" are
examined); every non-Error value becomes an EmailSendError with the
stringified value and no cause. -/
def wrapError (v : JSVal) (ctx : Option JSRecord) : WrappedError :=
  match v with
  | .vEmailError c m cs cx => ⟨c, m, cs, cx⟩
  | .vError m =>
    let lower := jsToLower m
    if jsIncludes lower "auth" then
      ⟨.smtpAuth, "Authentication failed: " ++ m, some (.vError m), ctx⟩
    else if jsIncludes lower "connect" then
      ⟨.smtpConnection, "Connection failed: " ++ m, some (.vError m), ctx⟩
    else
      ⟨.emailSend, "Email operation failed: " ++ m, some (.vError m), ctx⟩
  | v => ⟨.emailSend, "Unknown error occurred: " ++ jsToString v, none, ctx⟩

/-- Embedding of the RetryConfig interface of retry.ts. The attempt
bound is modelled as an integer and the durations and multiplier as
exact rationals. -/
structure RetryConfig where
  maxAttempts : ℤ
  initialDelay : ℚ
  maxDelay : ℚ
  backoffMultiplier : ℚ
  jitter : Bool

/-- JavaScript Math.round: rounds to the nearest integer, halves
toward positive infinity. -/
def jsRound (q : ℚ) : ℤ :=
  ⌊q + 1 / 2⌋

/-- The exponential-backoff delay before it is perturbed by jitter:
initialDelay times backoffMultiplier to the power (attempt - 1),
capped at maxDelay. -/
def cappedDelay (cfg : RetryConfig) (attempt : ℕ) : ℚ :=
  min (cfg.initialDelay * cfg.backoffMultiplier ^ (attempt - 1)) cfg.maxDelay

/-- Embedding of RetryableOperation.calculateDelay from retry.ts.
The parameter r stands for the Math.random() draw in the unit
interval; it is unused when jitter is disabled. The result is the
returned number of milliseconds, an integer after Math.round and the
final clamp at zero. -/
def calculateDelay (cfg : RetryConfig) (attempt : ℕ) (r : ℚ) : ℤ :=
  let capped := cappedDelay cfg attempt
  let jittered :=
    if cfg.jitter then capped + (r - 1 / 2) * 2 * (capped * (1 / 10)) else capped
  max 0 (jsRound jittered)

/-- The result of one invocation of the caller-supplied operation:
a resolved value or a raised JavaScript value. -/
inductive OpResult (T : Type) where
  | success (v : T)
  | failure (e : JSVal)

/-- Whether an invocation result is a failure. -/
def isFailure {T : Type} : OpResult T → Bool
  | .failure _ => true
  | .success _ => false

/-- The coercion applied by the catch block of execute:
error instanceof Error ? error : new Error(String(error)). -/
def jsWrapThrown (e : JSVal) : JSVal :=
  if isJsError e then e else .vError (jsToString e)

/-- The Error value pushed onto the attempt state when invocation j of
the operation fails (the wrapped thrown value); vUndefined when the
invocation does not fail. -/
def opErrVal {T : Type} (op : ℕ → OpResult T) (j : ℕ) : JSVal :=
  match op j with
  | .failure e => jsWrapThrown e
  | .success _ => .vUndefined

/-- The message property of an Error value, as read by
state.errors.map of e.message in execute. -/
def errMessage : JSVal → String
  | .vEmailError _ m _ _ => m
  | .vError m => m
  | _ => ""

/-- The final outcome of execute: a returned value, a raised value, or
the unconditional throw located after the while loop (which raises the
last element of the error history, an undefined read when empty). -/
inductive ExecOutcome (T : Type) where
  | ret (v : T)
  | thrown (e : JSVal)
  | afterLoop (e : Option JSVal)

/-- Whether the outcome came from the trailing throw after the loop. -/
def ExecOutcome.isAfterLoop {T : Type} : ExecOutcome T → Bool
  | .afterLoop _ => true
  | _ => false

/-- An execution trace of execute: the outcome, how many times the
operation was invoked, and the list of delays slept between attempts. -/
structure ExecTrace (T : Type) where
  outcome : ExecOutcome T
  invocations : ℕ
  delays : List ℤ

/-- The retry context object built by the give-up branch of execute:
the JavaScript literal spreading attempts and allErrors first, then
the caller-supplied context, then the original failure's own context
(spreading an undefined record contributes no keys). -/
def finalRetryContext (attempt : ℕ) (allErrors : List String)
    (callerCtx errCtx : Option JSRecord) : JSRecord :=
  spreadRec
    (spreadRec [("attempts", .nat attempt), ("allErrors", .strList allErrors)]
      (callerCtx.getD []))
    (errCtx.getD [])

/-- The EmailError raised by execute when it gives up and the last
failure is an EmailError with data c, m, cs, cx: a new instance of the
same concrete class, with the attempt-count message, the original
failure as cause, and the merged retry context. -/
def buildFinalError (c : ErrorCode) (m : String) (cs : Option JSVal)
    (cx : Option JSRecord) (attempt : ℕ) (errors : List JSVal)
    (callerCtx : Option JSRecord) : JSVal :=
  .vEmailError c
    ("Operation failed after " ++ toString attempt ++ " attempts: " ++ m)
    (some (.vEmailError c m cs cx))
    (some (finalRetryContext attempt (errors.map errMessage) callerCtx cx))

/-- The while loop of RetryableOperation.execute. The operation op is
given the 1-based invocation number; rand gives the Math.random() draw
used for the jitter of each delay; attempt, errors and delays carry
the mutable state. The fuel argument only bounds the recursion:
execute supplies maxAttempts.toNat, which makes the fuel-exhausted
case coincide exactly with the loop condition turning false. -/
def executeLoop {T : Type} (cfg : RetryConfig) (op : ℕ → OpResult T)
    (ctx : Option JSRecord) (rand : ℕ → ℚ) :
    ℕ → ℕ → List JSVal → List ℤ → ExecTrace T
  | 0, attempt, errors, delays =>
    ⟨.afterLoop errors.getLast?, attempt, delays⟩
  | fuel + 1, attempt, errors, delays =>
    if (attempt : ℤ) < cfg.maxAttempts then
      match op (attempt + 1) with
      | .success v => ⟨.ret v, attempt + 1, delays⟩
      | .failure e =>
        let wrapped := jsWrapThrown e
        let isLast : Bool := decide (cfg.maxAttempts ≤ ((attempt + 1 : ℕ) : ℤ))
        let shouldRetry : Bool := !isLast && isRetryableError wrapped
        if shouldRetry then
          executeLoop cfg op ctx rand fuel (attempt + 1) (errors ++ [wrapped])
            (delays ++ [calculateDelay cfg (attempt + 1) (rand (attempt + 1))])
        else
          match e with
          | .vEmailError c m cs cx =>
            ⟨.thrown (buildFinalError c m cs cx (attempt + 1) (errors ++ [wrapped]) ctx),
              attempt + 1, delays⟩
          | _ => ⟨.thrown wrapped, attempt + 1, delays⟩
    else
      ⟨.afterLoop errors.getLast?, attempt, delays⟩

/-- Embedding of RetryableOperation.execute from retry.ts: run the
while loop from a fresh attempt state. -/
def execute {T : Type} (cfg : RetryConfig) (op : ℕ → OpResult T)
    (ctx : Option JSRecord) (rand : ℕ → ℚ) : ExecTrace T :=
  executeLoop cfg op ctx rand cfg.maxAttempts.toNat 0 [] []

/-- The context property of a JavaScript value: only EmailError
instances carry one. -/
def jsContext : JSVal → Option JSRecord
  | .vEmailError _ _ _ cx => cx
  | _ => none

/-- A concrete operation that always fails with an authentication
EmailError whose own context binds the attempts key. -/
def opAuthFail : ℕ → OpResult ℕ :=
  fun _ => .failure (.vEmailError .smtpAuth "bad" none
    (some [("attempts", CtxValue.str "orig")]))

/-- A concrete operation that always fails with a retryable
connection EmailError. -/
def opConnFail : ℕ → OpResult ℕ :=
  fun _ => .failure (.vEmailError .smtpConnection "conn" none none)

/-- A concrete operation that always fails with a retryable plain
Error mentioning a timeout. -/
def opTimeoutFail : ℕ → OpResult ℕ :=
  fun _ => .failure (.vError "timeout")

/-- Evaluation rule for jsRound from floor bounds. -/
theorem jsRound_eq_of {q : ℚ} {n : ℤ} (h1 : (n : ℚ) ≤ q + 1 / 2)
    (h2 : q + 1 / 2 < n + 1) : jsRound q = n := by
  rw [jsRound]
  exact Int.floor_eq_iff.mpr ⟨h1, by exact_mod_cast h2⟩

/-- jsRound is the identity on natural numbers. -/
theorem jsRound_natCast (t : ℕ) : jsRound ((t : ℕ) : ℚ) = t :=
  jsRound_eq_of (by push_cast; linarith) (by push_cast; linarith)

/-- Reading the attempts key of the base retry-context object. -/
theorem getRec_base_attempts (n : ℕ) (l : List String) :
    getRec [("attempts", CtxValue.nat n), ("allErrors", CtxValue.strList l)] "attempts" =
      some (.nat n) := by
  simp [getRec]

/-- Reading the allErrors key of the base retry-context object. -/
theorem getRec_base_allErrors (n : ℕ) (l : List String) :
    getRec [("attempts", CtxValue.nat n), ("allErrors", CtxValue.strList l)] "allErrors" =
      some (.strList l) := by
  simp [getRec]

/-- Lookup after an object spread: the right record wins on conflict. -/
theorem getRec_spreadRec (a b : JSRecord) (k : String) :
    getRec (spreadRec a b) k = (getRec b k).orElse (fun _ => getRec a k) := by
  simp only [spreadRec, getRec, List.reverse_append, List.find?_append]
  cases List.find? (fun p => p.1 == k) b.reverse <;> simp [Option.orElse]

/-- Unfolding rule of the loop for a successful invocation. -/
theorem executeLoop_step_success {T : Type} (cfg : RetryConfig) (op : ℕ → OpResult T)
    (ctx : Option JSRecord) (rand : ℕ → ℚ) (fuel attempt : ℕ) (errors : List JSVal)
    (delays : List ℤ) (v : T)
    (hcond : (attempt : ℤ) < cfg.maxAttempts)
    (hop : op (attempt + 1) = .success v) :
    executeLoop cfg op ctx rand (fuel + 1) attempt errors delays =
      ⟨.ret v, attempt + 1, delays⟩ := by
  simp [executeLoop, hcond, hop]

/-- Unfolding rule of the loop for a failed invocation that will be
retried: not the last attempt and the wrapped failure is retryable. -/
theorem executeLoop_step_retry {T : Type} (cfg : RetryConfig) (op : ℕ → OpResult T)
    (ctx : Option JSRecord) (rand : ℕ → ℚ) (fuel attempt : ℕ) (errors : List JSVal)
    (delays : List ℤ) (e : JSVal)
    (hcond : (attempt : ℤ) < cfg.maxAttempts)
    (hop : op (attempt + 1) = .failure e)
    (hlast : ¬cfg.maxAttempts ≤ ((attempt + 1 : ℕ) : ℤ))
    (hretry : isRetryableError (jsWrapThrown e) = true) :
    executeLoop cfg op ctx rand (fuel + 1) attempt errors delays =
      executeLoop cfg op ctx rand fuel (attempt + 1) (errors ++ [jsWrapThrown e])
        (delays ++ [calculateDelay cfg (attempt + 1) (rand (attempt + 1))]) := by
  have hlast2 : ¬cfg.maxAttempts ≤ (attempt : ℤ) + 1 := by
    exact_mod_cast hlast
  simp [executeLoop, hcond, hop, hlast2, hretry]

/-- Unfolding rule of the loop when it gives up on an EmailError
failure: last attempt reached or the failure is not retryable. -/
theorem executeLoop_step_giveup_classified {T : Type} (cfg : RetryConfig)
    (op : ℕ → OpResult T) (ctx : Option JSRecord) (rand : ℕ → ℚ) (fuel attempt : ℕ)
    (errors : List JSVal) (delays : List ℤ) (c : ErrorCode) (m : String)
    (cs : Option JSVal) (cx : Option JSRecord)
    (hcond : (attempt : ℤ) < cfg.maxAttempts)
    (hop : op (attempt + 1) = .failure (.vEmailError c m cs cx))
    (hstop : cfg.maxAttempts ≤ ((attempt + 1 : ℕ) : ℤ) ∨ c.retryable = false) :
    executeLoop cfg op ctx rand (fuel + 1) attempt errors delays =
      ⟨.thrown (buildFinalError c m cs cx (attempt + 1)
          (errors ++ [JSVal.vEmailError c m cs cx]) ctx),
        attempt + 1, delays⟩ := by
  have hwrap : jsWrapThrown (JSVal.vEmailError c m cs cx) = .vEmailError c m cs cx := by
    simp [jsWrapThrown, isJsError]
  rcases hstop with hstop | hstop
  · have hstop2 : cfg.maxAttempts ≤ (attempt : ℤ) + 1 := by
      exact_mod_cast hstop
    simp only [executeLoop, hcond, if_pos, hop, hwrap]
    simp [hstop2]
  · simp only [executeLoop, hcond, if_pos, hop, hwrap]
    simp [isRetryableError, hstop]

/-- Unfolding rule of the loop when it gives up on a failure that is
not an EmailError: the wrapped failure is re-raised as is. -/
theorem executeLoop_step_giveup_raw {T : Type} (cfg : RetryConfig)
    (op : ℕ → OpResult T) (ctx : Option JSRecord) (rand : ℕ → ℚ) (fuel attempt : ℕ)
    (errors : List JSVal) (delays : List ℤ) (e : JSVal)
    (hcond : (attempt : ℤ) < cfg.maxAttempts)
    (hop : op (attempt + 1) = .failure e)
    (hcls : isClassifiedError e = false)
    (hstop : cfg.maxAttempts ≤ ((attempt + 1 : ℕ) : ℤ) ∨ isRetryableError (jsWrapThrown e) = false) :
    executeLoop cfg op ctx rand (fuel + 1) attempt errors delays =
      ⟨.thrown (jsWrapThrown e), attempt + 1, delays⟩ := by
  rcases hstop with hstop | hstop <;>
    cases e <;> simp_all [executeLoop, isClassifiedError]

/-- Advancing the loop across a block of retryable failures: if every
invocation from attempt + 1 up to k fails with a retryable error and
attempt k is not the last allowed attempt, the loop state moves to
attempt k, with the wrapped failures appended to the error history and
the corresponding backoff delays appended to the sleep log. -/
theorem executeLoop_advance {T : Type} (cfg : RetryConfig) (op : ℕ → OpResult T)
    (ctx : Option JSRecord) (rand : ℕ → ℚ) (k : ℕ)
    (hk : (k : ℤ) < cfg.maxAttempts) :
    ∀ fuel attempt errors delays,
      attempt ≤ k →
      fuel + attempt = cfg.maxAttempts.toNat →
      (∀ j, attempt < j → j ≤ k →
        isFailure (op j) = true ∧ isRetryableError (opErrVal op j) = true) →
      executeLoop cfg op ctx rand fuel attempt errors delays =
        executeLoop cfg op ctx rand (fuel - (k - attempt)) k
          (errors ++ (List.range' (attempt + 1) (k - attempt)).map (opErrVal op))
          (delays ++ (List.range' (attempt + 1) (k - attempt)).map
            (fun j => calculateDelay cfg j (rand j))) := by
  intro fuel
  induction fuel with
  | zero =>
    intro attempt errors delays hak hinv _
    omega
  | succ fuel ih =>
    intro attempt errors delays hak hinv hops
    rcases Nat.eq_or_lt_of_le hak with hak | hak
    · subst hak
      simp
    · have hcond : (attempt : ℤ) < cfg.maxAttempts := by
        omega
      obtain ⟨hfail, hretry⟩ := hops (attempt + 1) (by omega) (by omega)
      obtain ⟨e, hop⟩ : ∃ e, op (attempt + 1) = .failure e := by
        cases h : op (attempt + 1) with
        | success v => rw [h] at hfail; simp [isFailure] at hfail
        | failure e => exact ⟨e, rfl⟩
      have hwrap : opErrVal op (attempt + 1) = jsWrapThrown e := by
        simp [opErrVal, hop]
      rw [hwrap] at hretry
      have hlast : ¬cfg.maxAttempts ≤ ((attempt + 1 : ℕ) : ℤ) := by
        omega
      rw [executeLoop_step_retry cfg op ctx rand fuel attempt errors delays e hcond hop
        hlast hretry]
      rw [ih (attempt + 1) (errors ++ [jsWrapThrown e])
        (delays ++ [calculateDelay cfg (attempt + 1) (rand (attempt + 1))])
        (by omega) (by omega)
        (fun j h1 h2 => hops j (by omega) h2)]
      have hfuel : fuel + 1 - (k - attempt) = fuel - (k - (attempt + 1)) := by
        omega
      have hsplit : k - attempt = (k - (attempt + 1)) + 1 := by
        omega
      rw [hfuel, hsplit, List.range'_succ, List.map_cons, List.map_cons, hwrap]
      simp

/-- With the fuel supplied by execute, the loop never falls through to
the code after the while loop as long as the loop condition held on
entry: it always returns or raises from inside the loop body. -/
theorem executeLoop_not_afterLoop {T : Type} (cfg : RetryConfig) (op : ℕ → OpResult T)
    (ctx : Option JSRecord) (rand : ℕ → ℚ) :
    ∀ fuel attempt errors delays,
      fuel + attempt = cfg.maxAttempts.toNat →
      (attempt : ℤ) < cfg.maxAttempts →
      (executeLoop cfg op ctx rand fuel attempt errors delays).outcome.isAfterLoop = false := by
  intro fuel
  induction fuel with
  | zero =>
    intro attempt errors delays hinv hcond
    omega
  | succ fuel ih =>
    intro attempt errors delays hinv hcond
    cases hop : op (attempt + 1) with
    | success v =>
      rw [executeLoop_step_success cfg op ctx rand fuel attempt errors delays v hcond hop]
      rfl
    | failure e =>
      by_cases hretry : (!decide (cfg.maxAttempts ≤ ((attempt + 1 : ℕ) : ℤ)) &&
          isRetryableError (jsWrapThrown e)) = true
      · rw [Bool.and_eq_true, Bool.not_eq_eq_eq_not, Bool.not_true, decide_eq_false_iff_not]
          at hretry
        rw [executeLoop_step_retry cfg op ctx rand fuel attempt errors delays e hcond hop
          hretry.1 hretry.2]
        exact ih (attempt + 1) _ _ (by omega) (by omega)
      · have hstop : cfg.maxAttempts ≤ ((attempt + 1 : ℕ) : ℤ) ∨
            isRetryableError (jsWrapThrown e) = false := by
          rcases Bool.and_eq_false_iff.mp (Bool.eq_false_iff.mpr hretry) with h | h
          · left
            rw [Bool.not_eq_eq_eq_not, Bool.not_false, decide_eq_true_eq] at h
            exact h
          · right
            exact h
        cases he : e with
        | vEmailError c m cs cx =>
          rw [he] at hop hstop
          have hwrap : jsWrapThrown (JSVal.vEmailError c m cs cx) = .vEmailError c m cs cx := by
            simp [jsWrapThrown, isJsError]
          rw [hwrap] at hstop
          have hstop2 : cfg.maxAttempts ≤ ((attempt + 1 : ℕ) : ℤ) ∨ c.retryable = false := by
            rcases hstop with h | h
            · exact Or.inl h
            · exact Or.inr (by simpa [isRetryableError] using h)
          rw [executeLoop_step_giveup_classified cfg op ctx rand fuel attempt errors delays
            c m cs cx hcond hop hstop2]
          rfl
        | _ =>
          rw [he] at hop hstop
          rw [executeLoop_step_giveup_raw cfg op ctx rand fuel attempt errors delays _
            hcond hop (by simp [isClassifiedError]) hstop]
          rfl

/-- The sleep log of the loop only ever grows: the resulting delays
list extends the delays accumulated so far. -/
theorem executeLoop_delays_ext {T : Type} (cfg : RetryConfig) (op : ℕ → OpResult T)
    (ctx : Option JSRecord) (rand : ℕ → ℚ) :
    ∀ fuel attempt errors delays,
      ∃ s, (executeLoop cfg op ctx rand fuel attempt errors delays).delays = delays ++ s := by
  intro fuel
  induction fuel with
  | zero =>
    intro attempt errors delays
    exact ⟨[], by simp [executeLoop]⟩
  | succ fuel ih =>
    intro attempt errors delays
    by_cases hcond : (attempt : ℤ) < cfg.maxAttempts
    · cases hop : op (attempt + 1) with
      | success v =>
        exact ⟨[], by
          rw [executeLoop_step_success cfg op ctx rand fuel attempt errors delays v hcond hop]
          simp⟩
      | failure e =>
        by_cases hretry : (¬cfg.maxAttempts ≤ ((attempt + 1 : ℕ) : ℤ)) ∧
            isRetryableError (jsWrapThrown e) = true
        · obtain ⟨d, hd⟩ := ih (attempt + 1) (errors ++ [jsWrapThrown e])
            (delays ++ [calculateDelay cfg (attempt + 1) (rand (attempt + 1))])
          refine ⟨calculateDelay cfg (attempt + 1) (rand (attempt + 1)) :: d, ?_⟩
          rw [executeLoop_step_retry cfg op ctx rand fuel attempt errors delays e hcond hop
            hretry.1 hretry.2, hd]
          simp
        · have hstop : cfg.maxAttempts ≤ ((attempt + 1 : ℕ) : ℤ) ∨
              isRetryableError (jsWrapThrown e) = false := by
            by_cases h1 : cfg.maxAttempts ≤ ((attempt + 1 : ℕ) : ℤ)
            · exact Or.inl h1
            · refine Or.inr ?_
              by_contra h2
              exact hretry ⟨h1, by simpa using h2⟩
          cases he : e with
          | vEmailError c m cs cx =>
            rw [he] at hop hstop
            have hwrap : jsWrapThrown (JSVal.vEmailError c m cs cx) =
                .vEmailError c m cs cx := by
              simp [jsWrapThrown, isJsError]
            have hstop2 : cfg.maxAttempts ≤ ((attempt + 1 : ℕ) : ℤ) ∨ c.retryable = false := by
              rcases hstop with h | h
              · exact Or.inl h
              · rw [hwrap] at h
                exact Or.inr (by simpa [isRetryableError] using h)
            exact ⟨[], by
              rw [executeLoop_step_giveup_classified cfg op ctx rand fuel attempt errors
                delays c m cs cx hcond hop hstop2]
              simp⟩
          | _ =>
            rw [he] at hop hstop
            exact ⟨[], by
              rw [executeLoop_step_giveup_raw cfg op ctx rand fuel attempt errors delays _
                hcond hop (by simp [isClassifiedError]) hstop]
              simp⟩
    · exact ⟨[], by simp [executeLoop, hcond]⟩

/-- Claim C4: the retryability predicate returns, for every classified
error (EmailError), exactly that category's fixed retryable flag; and
for every other value whose message is a string, it returns true if
and only if the message case-insensitively contains one of ETIMEDOUT,
ECONNRESET, ENOTFOUND, ECONNREFUSED, timeout, network. -/
theorem isRetryableError_spec :
    (∀ (c : ErrorCode) (m : String) (cs : Option JSVal) (cx : Option JSRecord),
      isRetryableError (.vEmailError c m cs cx) = c.retryable) ∧
    (∀ (v : JSVal) (m : String),
      isClassifiedError v = false →
      jsMessageField v = some (.vStr m) →
      (isRetryableError v = true ↔
        ∃ t ∈ transientMessages, jsIncludes (jsToLower m) (jsToLower t) = true)) := by
  constructor
  · intro c m cs cx
    rfl
  · intro v m hcls hmsg
    cases v <;>
      simp_all [isClassifiedError, jsMessageField, isRetryableError, List.any_eq_true]

/-- Witness for C4 at a rate-limit error and at a generic error whose
message mentions a timeout. -/
theorem isRetryableError_spec_witness :
    isRetryableError (.vEmailError .rateLimit "x" none none) = ErrorCode.rateLimit.retryable ∧
    (isRetryableError (.vError "connection timeout") = true ↔
      ∃ t ∈ transientMessages,
        jsIncludes (jsToLower "connection timeout") (jsToLower t) = true) :=
  ⟨isRetryableError_spec.1 .rateLimit "x" none none,
   isRetryableError_spec.2 (.vError "connection timeout") "connection timeout" rfl rfl⟩

/-- Claim C5 counterexample: a generic error whose message contains
the word login (and one containing timeout) classifies as EmailSendError
(SendFailure), not as authentication respectively connectivity as the
claim states: wrapError only examines the substrings auth and
connect. -/
theorem wrapError_keywords_counterexample :
    (wrapError (.vError "login rejected") none).code = .emailSend ∧
    (wrapError (.vError "timeout") none).code = .emailSend ∧
    ErrorCode.emailSend ≠ ErrorCode.smtpAuth ∧
    ErrorCode.emailSend ≠ ErrorCode.smtpConnection := by
  decide

/-- Claim C5 (amended): for every generic (unclassified) error with a
string message, classification lower-cases the message and maps it by
substring: containing auth yields Authentication (not retryable) with
message prefixed Authentication failed; otherwise containing connect
yields Connectivity (retryable) with message prefixed Connection
failed; otherwise it yields SendFailure (retryable) with the message
prefixed Email operation failed. -/
theorem wrapError_generic_spec (m : String) (ctx : Option JSRecord) :
    (jsIncludes (jsToLower m) "auth" = true →
      wrapError (.vError m) ctx =
        ⟨.smtpAuth, "Authentication failed: " ++ m, some (.vError m), ctx⟩ ∧
      ErrorCode.smtpAuth.retryable = false) ∧
    (jsIncludes (jsToLower m) "auth" = false →
      jsIncludes (jsToLower m) "connect" = true →
      wrapError (.vError m) ctx =
        ⟨.smtpConnection, "Connection failed: " ++ m, some (.vError m), ctx⟩ ∧
      ErrorCode.smtpConnection.retryable = true) ∧
    (jsIncludes (jsToLower m) "auth" = false →
      jsIncludes (jsToLower m) "connect" = false →
      wrapError (.vError m) ctx =
        ⟨.emailSend, "Email operation failed: " ++ m, some (.vError m), ctx⟩ ∧
      ErrorCode.emailSend.retryable = true) := by
  refine ⟨fun h1 => ⟨?_, rfl⟩, fun h1 h2 => ⟨?_, rfl⟩, fun h1 h2 => ⟨?_, rfl⟩⟩ <;>
    simp [wrapError, h1]
  · simp [h2]
  · simp [h2]

/-- Witness for C5 at the three concrete messages of the spec. -/
theorem wrapError_generic_spec_witness :
    wrapError (.vError "auth failed") none =
      ⟨.smtpAuth, "Authentication failed: auth failed", some (.vError "auth failed"), none⟩ ∧
    wrapError (.vError "connect ETIMEDOUT") none =
      ⟨.smtpConnection, "Connection failed: connect ETIMEDOUT",
        some (.vError "connect ETIMEDOUT"), none⟩ ∧
    wrapError (.vError "unexpected") none =
      ⟨.emailSend, "Email operation failed: unexpected", some (.vError "unexpected"), none⟩ :=
  ⟨((wrapError_generic_spec "auth failed" none).1 (by decide)).1,
   ((wrapError_generic_spec "connect ETIMEDOUT" none).2.1 (by decide) (by decide)).1,
   ((wrapError_generic_spec "unexpected" none).2.2 (by decide) (by decide)).1⟩

/-- Claim C8 counterexample: a non-error-shaped failure wraps into the
EmailSendError category whose fixed retryable flag is true, not false
as the claim states; message and absent cause are as claimed. -/
theorem wrapError_unknown_counterexample :
    (wrapError (.vStr "boom") none).message = "Unknown error occurred: boom" ∧
    (wrapError (.vStr "boom") none).cause = none ∧
    (wrapError (.vStr "boom") none).code = .emailSend ∧
    ¬(wrapError (.vStr "boom") none).code.retryable = false := by
  refine ⟨by decide, rfl, by decide, by decide⟩

/-- Claim C8 (amended): for every failure value that is not
error-shaped, classification produces the SendFailure category with
message Unknown error occurred followed by the stringified value, no
cause attached, and the category's retryable flag equal to true. -/
theorem wrapError_unknown_spec (v : JSVal) (ctx : Option JSRecord)
    (h : isJsError v = false) :
    wrapError v ctx =
      ⟨.emailSend, "Unknown error occurred: " ++ jsToString v, none, ctx⟩ ∧
    ErrorCode.emailSend.retryable = true := by
  cases v <;> simp_all [isJsError, wrapError] <;> rfl

/-- Witness for C8 at the null failure value. -/
theorem wrapError_unknown_spec_witness :
    wrapError JSVal.vNull none =
      ⟨.emailSend, "Unknown error occurred: " ++ jsToString JSVal.vNull, none, none⟩ ∧
    ErrorCode.emailSend.retryable = true :=
  wrapError_unknown_spec JSVal.vNull none rfl

/-- Claim C10: for every policy with maxAttempts at least 1 and every
operation, execute terminates via a return or a throw inside the loop
body, so the unconditional trailing throw after the loop is
unreachable. -/
theorem execute_no_afterLoop {T : Type} (cfg : RetryConfig) (op : ℕ → OpResult T)
    (ctx : Option JSRecord) (rand : ℕ → ℚ) (h1 : 1 ≤ cfg.maxAttempts) :
    (execute cfg op ctx rand).outcome.isAfterLoop = false := by
  rw [execute]
  exact executeLoop_not_afterLoop cfg op ctx rand _ 0 [] [] (by omega) (by omega)

/-- Witness for C10 at a one-attempt policy and a succeeding
operation. -/
theorem execute_no_afterLoop_witness :
    (1 : ℤ) ≤ (1 : ℤ) ∧
    (execute ⟨1, 0, 0, 1, false⟩ (fun _ => OpResult.success 0) none
      (fun _ => 0) : ExecTrace ℕ).outcome.isAfterLoop = false :=
  ⟨by decide, execute_no_afterLoop ⟨1, 0, 0, 1, false⟩ (fun _ => OpResult.success 0) none
    (fun _ => 0) (by decide)⟩

/-- Claim C7 counterexample: with initialDelay 6, multiplier 2,
maxDelay 100, jitter on and the random draw 0 (an allowed draw), the
first delay computes to 5, which lies strictly outside the plus or
minus ten percent band [5.4, 6.6] around the un-jittered capped delay
6: Math.round can leave the band. -/
theorem calculateDelay_jitter_counterexample :
    calculateDelay ⟨3, 6, 100, 2, true⟩ 1 0 = 5 ∧
    (0 : ℚ) ≤ 0 ∧ (0 : ℚ) < 1 ∧
    cappedDelay ⟨3, 6, 100, 2, true⟩ 1 = 6 ∧
    ¬|((5 : ℤ) : ℚ) - cappedDelay ⟨3, 6, 100, 2, true⟩ 1| ≤
      cappedDelay ⟨3, 6, 100, 2, true⟩ 1 / 10 := by
  have hcap : cappedDelay ⟨3, 6, 100, 2, true⟩ 1 = 6 := by
    rw [cappedDelay]
    norm_num [min_def]
  have hjit : (6 : ℚ) + ((0 : ℚ) - 1 / 2) * 2 * (6 * (1 / 10)) = 27 / 5 := by
    norm_num
  have hdel : calculateDelay ⟨3, 6, 100, 2, true⟩ 1 0 = 5 := by
    have h5 : jsRound (27 / 5 : ℚ) = 5 := jsRound_eq_of (by norm_num) (by norm_num)
    simp only [calculateDelay, eq_self_iff_true, if_true, hcap]
    rw [hjit, h5]
    decide
  have habs : |((5 : ℤ) : ℚ) - 6| = 1 := by
    norm_num
  refine ⟨hdel, le_refl 0, by norm_num, hcap, ?_⟩
  rw [hcap, habs]
  norm_num

/-- Claim C7 (amended): with jitter enabled, a draw in the unit
interval and non-negative policy values, the pre-rounding jittered
delay stays within plus or minus ten percent of the capped un-jittered
delay; the returned delay, which additionally passes through
Math.round and a clamp at zero, is never negative and differs from the
capped delay by at most ten percent of it plus one half. -/
theorem calculateDelay_jitter_spec (cfg : RetryConfig) (attempt : ℕ) (r : ℚ)
    (hj : cfg.jitter = true) (hr0 : 0 ≤ r) (hr1 : r < 1)
    (hd : 0 ≤ cfg.initialDelay) (hm : 0 ≤ cfg.backoffMultiplier)
    (hx : 0 ≤ cfg.maxDelay) :
    0 ≤ calculateDelay cfg attempt r ∧
    |(cappedDelay cfg attempt + (r - 1 / 2) * 2 * (cappedDelay cfg attempt * (1 / 10))) -
        cappedDelay cfg attempt| ≤ cappedDelay cfg attempt / 10 ∧
    |((calculateDelay cfg attempt r : ℤ) : ℚ) - cappedDelay cfg attempt| ≤
      cappedDelay cfg attempt / 10 + 1 / 2 := by
  have hcap0 : 0 ≤ cappedDelay cfg attempt := by
    rw [cappedDelay]
    exact le_min (mul_nonneg hd (pow_nonneg hm _)) hx
  set capped := cappedDelay cfg attempt with hcapd
  set jit := (r - 1 / 2) * 2 * (capped * (1 / 10)) with hjitd
  have hjbound : |jit| ≤ capped / 10 := by
    rw [hjitd, abs_mul]
    have h1 : |(r - 1 / 2) * 2| ≤ 1 := by
      rw [abs_le]
      constructor <;> linarith
    have h2 : |capped * (1 / 10)| = capped / 10 := by
      rw [abs_of_nonneg (by linarith)]
      ring
    rw [h2]
    calc |(r - 1 / 2) * 2| * (capped / 10) ≤ 1 * (capped / 10) := by
          exact mul_le_mul_of_nonneg_right h1 (by linarith)
      _ = capped / 10 := by ring
  have hjlo : capped - capped / 10 ≤ capped + jit := by
    have := (abs_le.mp hjbound).1
    linarith
  have hjhi : capped + jit ≤ capped + capped / 10 := by
    have := (abs_le.mp hjbound).2
    linarith
  have hpos : 0 ≤ capped + jit := by
    linarith
  have hdel : calculateDelay cfg attempt r = max 0 (jsRound (capped + jit)) := by
    simp only [calculateDelay, hj, eq_self_iff_true, if_true]
  have hround : jsRound (capped + jit) = ⌊capped + jit + 1 / 2⌋ := rfl
  have hrnonneg : 0 ≤ jsRound (capped + jit) := by
    rw [hround]
    have : (0 : ℚ) ≤ capped + jit + 1 / 2 := by linarith
    exact Int.le_floor.mpr (by exact_mod_cast this)
  have hmax : max 0 (jsRound (capped + jit)) = jsRound (capped + jit) :=
    max_eq_right hrnonneg
  have hfl : ((jsRound (capped + jit) : ℤ) : ℚ) ≤ capped + jit + 1 / 2 := by
    rw [hround]
    exact Int.floor_le _
  have hfh : capped + jit - 1 / 2 < ((jsRound (capped + jit) : ℤ) : ℚ) := by
    rw [hround]
    have := Int.lt_floor_add_one (capped + jit + 1 / 2)
    push_cast at this ⊢
    linarith
  refine ⟨?_, ?_, ?_⟩
  · rw [hdel]
    exact le_max_left 0 _
  · have : capped + jit - capped = jit := by ring
    rw [this]
    exact hjbound
  · rw [hdel, hmax, abs_le]
    constructor
    · have := (abs_le.mp hjbound).1
      linarith
    · have := (abs_le.mp hjbound).2
      linarith

/-- Witness for C7 at the all-zero policy and the draw one half. -/
theorem calculateDelay_jitter_spec_witness :
    0 ≤ calculateDelay ⟨3, 0, 0, 0, true⟩ 1 0 ∧
    |(cappedDelay ⟨3, 0, 0, 0, true⟩ 1 + ((0 : ℚ) - 1 / 2) * 2 *
        (cappedDelay ⟨3, 0, 0, 0, true⟩ 1 * (1 / 10))) - cappedDelay ⟨3, 0, 0, 0, true⟩ 1| ≤
      cappedDelay ⟨3, 0, 0, 0, true⟩ 1 / 10 ∧
    |((calculateDelay ⟨3, 0, 0, 0, true⟩ 1 0 : ℤ) : ℚ) -
        cappedDelay ⟨3, 0, 0, 0, true⟩ 1| ≤ cappedDelay ⟨3, 0, 0, 0, true⟩ 1 / 10 + 1 / 2 :=
  calculateDelay_jitter_spec ⟨3, 0, 0, 0, true⟩ 1 0 rfl (le_refl 0) zero_lt_one
    (le_refl 0) (le_refl 0) (le_refl 0)

/-- Claim C9: for every policy with maxAttempts N at least 1 and every
k between 1 and N, if the operation fails with a retryable error on
each of its first k - 1 invocations and succeeds on the k-th, execute
invokes it exactly k times and returns that k-th success value. -/
theorem execute_success_spec {T : Type} (cfg : RetryConfig) (op : ℕ → OpResult T)
    (ctx : Option JSRecord) (rand : ℕ → ℚ) (N k : ℕ) (v : T)
    (hN : cfg.maxAttempts = (N : ℤ)) (hN1 : 1 ≤ N) (hk1 : 1 ≤ k) (hkN : k ≤ N)
    (hops : ∀ j, 1 ≤ j → j < k →
      isFailure (op j) = true ∧ isRetryableError (opErrVal op j) = true)
    (hsucc : op k = .success v) :
    (execute cfg op ctx rand).outcome = .ret v ∧
    (execute cfg op ctx rand).invocations = k := by
  have hadv := executeLoop_advance cfg op ctx rand (k - 1) (by omega)
    cfg.maxAttempts.toNat 0 [] [] (by omega) (by omega)
    (fun j h1 h2 => hops j (by omega) (by omega))
  rw [execute, hadv]
  obtain ⟨f, hf⟩ : ∃ f, cfg.maxAttempts.toNat - (k - 1 - 0) = f + 1 :=
    ⟨cfg.maxAttempts.toNat - (k - 1) - 1, by omega⟩
  rw [hf]
  have hcond : ((k - 1 : ℕ) : ℤ) < cfg.maxAttempts := by omega
  have hop2 : op ((k - 1) + 1) = .success v := by
    rw [show (k - 1) + 1 = k from by omega]
    exact hsucc
  rw [executeLoop_step_success cfg op ctx rand f (k - 1) _ _ v hcond hop2]
  exact ⟨rfl, by show (k - 1) + 1 = k; omega⟩

/-- Witness for C9: one retryable failure followed by a success under
a three-attempt policy gives exactly two invocations. -/
theorem execute_success_spec_witness :
    (execute ⟨3, 1000, 30000, 2, true⟩
      (fun j => if j = 1 then OpResult.failure (JSVal.vError "timeout")
        else OpResult.success 42) none (fun _ => 0) : ExecTrace ℕ).outcome =
      .ret 42 ∧
    (execute ⟨3, 1000, 30000, 2, true⟩
      (fun j => if j = 1 then OpResult.failure (JSVal.vError "timeout")
        else OpResult.success 42) none (fun _ => 0) : ExecTrace ℕ).invocations = 2 :=
  execute_success_spec ⟨3, 1000, 30000, 2, true⟩
    (fun j => if j = 1 then OpResult.failure (JSVal.vError "timeout")
      else OpResult.success 42) none (fun _ => 0) 3 2 42 rfl (by decide) (by decide)
    (by decide)
    (fun j h1 h2 => by
      have hj : j = 1 := by omega
      subst hj
      exact ⟨rfl, by decide⟩)
    rfl

/-- Running execute on an operation whose first k - 1 invocations fail
retryably and whose k-th raises an EmailError on which the executor
gives up (last attempt or not retryable): the full resulting trace. -/
theorem execute_reaches_giveup_classified {T : Type} (cfg : RetryConfig)
    (op : ℕ → OpResult T) (ctx : Option JSRecord) (rand : ℕ → ℚ) (N k : ℕ)
    (c : ErrorCode) (m : String) (cs : Option JSVal) (cx : Option JSRecord)
    (hN : cfg.maxAttempts = (N : ℤ)) (hk1 : 1 ≤ k) (hkN : k ≤ N)
    (hops : ∀ j, 1 ≤ j → j < k →
      isFailure (op j) = true ∧ isRetryableError (opErrVal op j) = true)
    (hopk : op k = .failure (.vEmailError c m cs cx))
    (hstop : k = N ∨ c.retryable = false) :
    execute cfg op ctx rand =
      ⟨.thrown (buildFinalError c m cs cx k
          ((List.range' 1 (k - 1)).map (opErrVal op) ++ [JSVal.vEmailError c m cs cx]) ctx),
        k, (List.range' 1 (k - 1)).map (fun j => calculateDelay cfg j (rand j))⟩ := by
  have hadv := executeLoop_advance cfg op ctx rand (k - 1) (by omega)
    cfg.maxAttempts.toNat 0 [] [] (by omega) (by omega)
    (fun j h1 h2 => hops j (by omega) (by omega))
  rw [execute, hadv]
  obtain ⟨f, hf⟩ : ∃ f, cfg.maxAttempts.toNat - (k - 1 - 0) = f + 1 :=
    ⟨cfg.maxAttempts.toNat - (k - 1) - 1, by omega⟩
  rw [hf]
  have hcond : ((k - 1 : ℕ) : ℤ) < cfg.maxAttempts := by omega
  have hopk2 : op ((k - 1) + 1) = .failure (.vEmailError c m cs cx) := by
    rw [show (k - 1) + 1 = k from by omega]
    exact hopk
  have hstop2 : cfg.maxAttempts ≤ (((k - 1) + 1 : ℕ) : ℤ) ∨ c.retryable = false := by
    rcases hstop with h | h
    · left
      omega
    · exact Or.inr h
  rw [executeLoop_step_giveup_classified cfg op ctx rand f (k - 1) _ _ c m cs cx hcond
    hopk2 hstop2]
  simp only [show (k - 1) + 1 = k from by omega, List.nil_append, Nat.sub_zero, Nat.zero_add]

/-- Running execute on an operation whose first k - 1 invocations fail
retryably and whose k-th raises a failure that is not an EmailError,
on which the executor gives up: the full resulting trace. -/
theorem execute_reaches_giveup_raw {T : Type} (cfg : RetryConfig)
    (op : ℕ → OpResult T) (ctx : Option JSRecord) (rand : ℕ → ℚ) (N k : ℕ) (e : JSVal)
    (hN : cfg.maxAttempts = (N : ℤ)) (hk1 : 1 ≤ k) (hkN : k ≤ N)
    (hops : ∀ j, 1 ≤ j → j < k →
      isFailure (op j) = true ∧ isRetryableError (opErrVal op j) = true)
    (hopk : op k = .failure e)
    (hcls : isClassifiedError e = false)
    (hstop : k = N ∨ isRetryableError (jsWrapThrown e) = false) :
    execute cfg op ctx rand =
      ⟨.thrown (jsWrapThrown e), k,
        (List.range' 1 (k - 1)).map (fun j => calculateDelay cfg j (rand j))⟩ := by
  have hadv := executeLoop_advance cfg op ctx rand (k - 1) (by omega)
    cfg.maxAttempts.toNat 0 [] [] (by omega) (by omega)
    (fun j h1 h2 => hops j (by omega) (by omega))
  rw [execute, hadv]
  obtain ⟨f, hf⟩ : ∃ f, cfg.maxAttempts.toNat - (k - 1 - 0) = f + 1 :=
    ⟨cfg.maxAttempts.toNat - (k - 1) - 1, by omega⟩
  rw [hf]
  have hcond : ((k - 1 : ℕ) : ℤ) < cfg.maxAttempts := by omega
  have hopk2 : op ((k - 1) + 1) = .failure e := by
    rw [show (k - 1) + 1 = k from by omega]
    exact hopk
  have hstop2 : cfg.maxAttempts ≤ (((k - 1) + 1 : ℕ) : ℤ) ∨
      isRetryableError (jsWrapThrown e) = false := by
    rcases hstop with h | h
    · left
      omega
    · exact Or.inr h
  rw [executeLoop_step_giveup_raw cfg op ctx rand f (k - 1) _ _ e hcond hopk2 hcls hstop2]
  simp only [show (k - 1) + 1 = k from by omega, List.nil_append, Nat.sub_zero, Nat.zero_add]

/-- Claim C2: when execute gives up and the last raised failure is an
EmailError, the error it raises is a new instance of the same concrete
category with the attempt-count message, the original failure as
cause, and context the merge of the attempts and allErrors entries,
the caller-supplied context, and the original failure's own context,
where on any key conflict the original failure's context wins over
the caller and attempt values. -/
theorem execute_rewrap_classified_spec {T : Type} (cfg : RetryConfig)
    (op : ℕ → OpResult T) (ctx : Option JSRecord) (rand : ℕ → ℚ) (N k : ℕ)
    (c : ErrorCode) (m : String) (cs : Option JSVal) (cx : Option JSRecord)
    (hN : cfg.maxAttempts = (N : ℤ)) (hk1 : 1 ≤ k) (hkN : k ≤ N)
    (hops : ∀ j, 1 ≤ j → j < k →
      isFailure (op j) = true ∧ isRetryableError (opErrVal op j) = true)
    (hopk : op k = .failure (.vEmailError c m cs cx))
    (hstop : k = N ∨ c.retryable = false) :
    (execute cfg op ctx rand).outcome =
      .thrown (.vEmailError c
        ("Operation failed after " ++ toString k ++ " attempts: " ++ m)
        (some (.vEmailError c m cs cx))
        (some (finalRetryContext k
          (((List.range' 1 (k - 1)).map (opErrVal op) ++
            [JSVal.vEmailError c m cs cx]).map errMessage) ctx cx))) ∧
    (∀ key : String,
      getRec (finalRetryContext k
        (((List.range' 1 (k - 1)).map (opErrVal op) ++
          [JSVal.vEmailError c m cs cx]).map errMessage) ctx cx) key =
      (getRec (cx.getD []) key).orElse (fun _ =>
        (getRec (ctx.getD []) key).orElse (fun _ =>
          getRec [("attempts", CtxValue.nat k),
            ("allErrors", CtxValue.strList
              (((List.range' 1 (k - 1)).map (opErrVal op) ++
                [JSVal.vEmailError c m cs cx]).map errMessage))] key))) := by
  constructor
  · rw [execute_reaches_giveup_classified cfg op ctx rand N k c m cs cx hN hk1 hkN hops
      hopk hstop]
    rfl
  · intro key
    simp only [finalRetryContext, getRec_spreadRec]

/-- Witness for C2: a single non-retryable authentication failure on a
one-attempt policy; reading the attempts key shows the merge order. -/
theorem execute_rewrap_classified_spec_witness :
    (execute ⟨1, 1000, 30000, 2, true⟩ opAuthFail none (fun _ => 0)).outcome =
      .thrown (.vEmailError .smtpAuth
        ("Operation failed after " ++ toString 1 ++ " attempts: " ++ "bad")
        (some (.vEmailError .smtpAuth "bad" none (some [("attempts", CtxValue.str "orig")])))
        (some (finalRetryContext 1
          (((List.range' 1 0).map (opErrVal opAuthFail) ++
            [JSVal.vEmailError .smtpAuth "bad" none
              (some [("attempts", CtxValue.str "orig")])]).map errMessage)
          none (some [("attempts", CtxValue.str "orig")])))) ∧
    getRec (finalRetryContext 1
        (((List.range' 1 0).map (opErrVal opAuthFail) ++
          [JSVal.vEmailError .smtpAuth "bad" none
            (some [("attempts", CtxValue.str "orig")])]).map errMessage)
        none (some [("attempts", CtxValue.str "orig")])) "attempts" =
      (getRec [("attempts", CtxValue.str "orig")] "attempts").orElse (fun _ =>
        (getRec [] "attempts").orElse (fun _ =>
          getRec [("attempts", CtxValue.nat 1),
            ("allErrors", CtxValue.strList
              (((List.range' 1 0).map (opErrVal opAuthFail) ++
                [JSVal.vEmailError .smtpAuth "bad" none
                  (some [("attempts", CtxValue.str "orig")])]).map errMessage))]
            "attempts")) :=
  ⟨(execute_rewrap_classified_spec ⟨1, 1000, 30000, 2, true⟩ opAuthFail none (fun _ => 0)
      1 1 .smtpAuth "bad" none (some [("attempts", CtxValue.str "orig")]) rfl (le_refl 1)
      (le_refl 1) (fun j h1 h2 => absurd h2 (by omega)) rfl (Or.inl rfl)).1,
   (execute_rewrap_classified_spec ⟨1, 1000, 30000, 2, true⟩ opAuthFail none (fun _ => 0)
      1 1 .smtpAuth "bad" none (some [("attempts", CtxValue.str "orig")]) rfl (le_refl 1)
      (le_refl 1) (fun j h1 h2 => absurd h2 (by omega)) rfl (Or.inl rfl)).2 "attempts"⟩

/-- Claim C1 counterexample: a one-attempt policy and an operation
that always fails with a retryable but unclassified error: execute
raises the plain Error itself, which carries no context at all, so
the raised error's context does not contain attempts and allErrors. -/
theorem execute_exhaustion_counterexample :
    (execute ⟨1, 1000, 30000, 2, true⟩
      (fun _ => OpResult.failure (JSVal.vError "timeout")) none
      (fun _ => 0) : ExecTrace ℕ).outcome = .thrown (.vError "timeout") ∧
    isRetryableError (.vError "timeout") = true ∧
    jsContext (.vError "timeout") = none := by
  refine ⟨?_, by decide, rfl⟩
  rw [execute_reaches_giveup_raw ⟨1, 1000, 30000, 2, true⟩ _ none (fun _ => 0) 1 1
    (JSVal.vError "timeout") rfl (le_refl 1) (le_refl 1)
    (fun j h1 h2 => absurd h2 (by omega)) rfl rfl (Or.inl rfl)]
  rfl

/-- Claim C1 (amended): for every policy with integer maxAttempts N at
least 1 and every operation failing each invocation with a retryable
classified error (EmailError), execute invokes the operation exactly N
times and raises an EmailError whose context contains attempts = N and
an allErrors list of length N holding the messages of every failure,
oldest first — provided neither the final failure's own context nor
the caller context binds the attempts or allErrors keys, which would
take precedence in the merge. An always-failing retryable but
unclassified error is instead re-raised without context. -/
theorem execute_exhaustion_classified_spec {T : Type} (cfg : RetryConfig)
    (op : ℕ → OpResult T) (ctx : Option JSRecord) (rand : ℕ → ℚ) (N : ℕ)
    (c : ℕ → ErrorCode) (m : ℕ → String) (cs : ℕ → Option JSVal)
    (cx : ℕ → Option JSRecord)
    (hN : cfg.maxAttempts = (N : ℤ)) (hN1 : 1 ≤ N)
    (hop : ∀ j, 1 ≤ j → op j = .failure (.vEmailError (c j) (m j) (cs j) (cx j)))
    (hretry : ∀ j, 1 ≤ j → (c j).retryable = true)
    (hcx1 : getRec ((cx N).getD []) "attempts" = none)
    (hcx2 : getRec ((cx N).getD []) "allErrors" = none)
    (hctx1 : getRec (ctx.getD []) "attempts" = none)
    (hctx2 : getRec (ctx.getD []) "allErrors" = none) :
    (execute cfg op ctx rand).invocations = N ∧
    (execute cfg op ctx rand).outcome =
      .thrown (.vEmailError (c N)
        ("Operation failed after " ++ toString N ++ " attempts: " ++ m N)
        (some (.vEmailError (c N) (m N) (cs N) (cx N)))
        (some (finalRetryContext N ((List.range' 1 N).map m) ctx (cx N)))) ∧
    getRec (finalRetryContext N ((List.range' 1 N).map m) ctx (cx N)) "attempts" =
      some (.nat N) ∧
    getRec (finalRetryContext N ((List.range' 1 N).map m) ctx (cx N)) "allErrors" =
      some (.strList ((List.range' 1 N).map m)) ∧
    ((List.range' 1 N).map m).length = N := by
  have htrace := execute_reaches_giveup_classified cfg op ctx rand N N (c N) (m N)
    (cs N) (cx N) hN hN1 (le_refl N)
    (fun j h1 h2 => ⟨by simp [isFailure, hop j h1],
      by simp [opErrVal, hop j h1, jsWrapThrown, isJsError, isRetryableError,
        hretry j h1]⟩)
    (hop N hN1) (Or.inl rfl)
  have hmsgs : ((List.range' 1 (N - 1)).map (opErrVal op) ++
      [JSVal.vEmailError (c N) (m N) (cs N) (cx N)]).map errMessage =
      (List.range' 1 N).map m := by
    rw [List.map_append, List.map_map]
    have h1 : (List.range' 1 (N - 1)).map (errMessage ∘ opErrVal op) =
        (List.range' 1 (N - 1)).map m := by
      apply List.map_congr_left
      intro j hj
      obtain ⟨i, hi, hji⟩ := List.mem_range'.mp hj
      have hj1 : 1 ≤ j := by omega
      simp [Function.comp, opErrVal, hop j hj1, jsWrapThrown, isJsError, errMessage]
    have h2 : List.range' 1 N = List.range' 1 (N - 1) ++ [N] := by
      conv_lhs => rw [show N = (N - 1) + 1 from by omega]
      rw [List.range'_concat]
      have : 1 + 1 * (N - 1) = N := by omega
      rw [this]
    rw [h1, h2, List.map_append]
    simp [errMessage]
  refine ⟨by rw [htrace], ?_, ?_, ?_, by simp⟩
  · rw [htrace]
    simp only [buildFinalError, hmsgs]
  · simp only [finalRetryContext, getRec_spreadRec, hcx1, hctx1,
      getRec_base_attempts, Option.orElse]
  · simp only [finalRetryContext, getRec_spreadRec, hcx2, hctx2,
      getRec_base_allErrors, Option.orElse]

/-- Witness for C1: a two-attempt policy and an operation always
failing with a retryable connection error. -/
theorem execute_exhaustion_classified_spec_witness :
    (execute ⟨2, 1000, 30000, 2, true⟩ opConnFail none (fun _ => 0)).invocations = 2 ∧
    getRec (finalRetryContext 2 ((List.range' 1 2).map (fun _ => "conn")) none none)
      "attempts" = some (.nat 2) ∧
    getRec (finalRetryContext 2 ((List.range' 1 2).map (fun _ => "conn")) none none)
      "allErrors" = some (.strList ((List.range' 1 2).map (fun _ => "conn"))) ∧
    ((List.range' 1 2).map (fun _ => "conn")).length = 2 := by
  have h := execute_exhaustion_classified_spec ⟨2, 1000, 30000, 2, true⟩ opConnFail
    none (fun _ => 0) 2 (fun _ => .smtpConnection) (fun _ => "conn") (fun _ => none)
    (fun _ => none) rfl (by omega) (fun j hj => rfl) (fun j hj => rfl) rfl rfl rfl rfl
  exact ⟨h.1, h.2.2.1, h.2.2.2.1, h.2.2.2.2⟩

/-- Claim C6 counterexample: a thrown string is not re-raised
unchanged: the executor coerces it to a new Error carrying the
stringified value as its message and raises that Error instead. -/
theorem execute_giveup_raw_counterexample :
    (execute ⟨1, 1000, 30000, 2, true⟩
      (fun _ => OpResult.failure (JSVal.vStr "boom")) none
      (fun _ => 0) : ExecTrace ℕ).outcome = .thrown (.vError "boom") ∧
    JSVal.vError "boom" ≠ JSVal.vStr "boom" := by
  refine ⟨?_, by simp⟩
  rw [execute_reaches_giveup_raw ⟨1, 1000, 30000, 2, true⟩ _ none (fun _ => 0) 1 1
    (JSVal.vStr "boom") rfl (le_refl 1) (le_refl 1)
    (fun j h1 h2 => absurd h2 (by omega)) rfl rfl (Or.inl rfl)]
  rfl

/-- Claim C6 (amended): when execute gives up and the last failure is
not a classified error, it raises the catch-block coercion of that
failure: the failure itself when it is an Error instance, and
new Error(String(value)) when it is not — in both cases without
attempt-count context. -/
theorem execute_giveup_raw_spec {T : Type} (cfg : RetryConfig)
    (op : ℕ → OpResult T) (ctx : Option JSRecord) (rand : ℕ → ℚ) (N k : ℕ) (e : JSVal)
    (hN : cfg.maxAttempts = (N : ℤ)) (hk1 : 1 ≤ k) (hkN : k ≤ N)
    (hops : ∀ j, 1 ≤ j → j < k →
      isFailure (op j) = true ∧ isRetryableError (opErrVal op j) = true)
    (hopk : op k = .failure e)
    (hcls : isClassifiedError e = false)
    (hstop : k = N ∨ isRetryableError (jsWrapThrown e) = false) :
    (execute cfg op ctx rand).outcome = .thrown (jsWrapThrown e) ∧
    (execute cfg op ctx rand).invocations = k ∧
    jsContext (jsWrapThrown e) = none ∧
    (isJsError e = true → jsWrapThrown e = e) := by
  rw [execute_reaches_giveup_raw cfg op ctx rand N k e hN hk1 hkN hops hopk hcls hstop]
  refine ⟨rfl, rfl, ?_, fun h => by simp [jsWrapThrown, h]⟩
  cases e <;> simp_all [isClassifiedError, jsWrapThrown, isJsError, jsContext]

/-- Witness for C6: a one-attempt policy and a plain Error failure,
which is re-raised as the very same value. -/
theorem execute_giveup_raw_spec_witness :
    (execute ⟨1, 1000, 30000, 2, true⟩
      (fun _ => OpResult.failure (JSVal.vError "oops")) none
      (fun _ => 0) : ExecTrace ℕ).outcome = .thrown (jsWrapThrown (.vError "oops")) ∧
    (execute ⟨1, 1000, 30000, 2, true⟩
      (fun _ => OpResult.failure (JSVal.vError "oops")) none
      (fun _ => 0) : ExecTrace ℕ).invocations = 1 ∧
    jsContext (jsWrapThrown (.vError "oops")) = none ∧
    (isJsError (.vError "oops") = true → jsWrapThrown (.vError "oops") = .vError "oops") :=
  execute_giveup_raw_spec ⟨1, 1000, 30000, 2, true⟩
    (fun _ => OpResult.failure (JSVal.vError "oops")) none (fun _ => 0) 1 1
    (JSVal.vError "oops") rfl (le_refl 1) (le_refl 1)
    (fun j h1 h2 => absurd h2 (by omega)) rfl rfl (Or.inl rfl)

/-- Claim C3 counterexample: with jitter off, initialDelay one half
and multiplier 2, the first slept delay is 1 (Math.round rounds the
capped value 0.5 up), not the un-rounded min of the claim, which is
one half. -/
theorem execute_delay_counterexample :
    (execute ⟨2, (1 : ℚ) / 2, 100, 2, false⟩ opTimeoutFail none (fun _ => 0)).delays =
      [1] ∧
    ((1 : ℤ) : ℚ) ≠ min ((1 : ℚ) / 2 * 2 ^ (1 - 1)) 100 := by
  constructor
  · rw [execute_reaches_giveup_raw ⟨2, (1 : ℚ) / 2, 100, 2, false⟩ opTimeoutFail none
      (fun _ => 0) 2 2 (JSVal.vError "timeout") rfl (by omega) (le_refl 2)
      (fun j h1 h2 => ⟨rfl, rfl⟩) rfl rfl (Or.inl rfl)]
    have hcap : cappedDelay ⟨2, (1 : ℚ) / 2, 100, 2, false⟩ 1 = 1 / 2 := by
      rw [cappedDelay]
      norm_num [min_def]
    have hdel : calculateDelay ⟨2, (1 : ℚ) / 2, 100, 2, false⟩ 1 0 = 1 := by
      have h1 : jsRound ((1 : ℚ) / 2) = 1 := jsRound_eq_of (by norm_num) (by norm_num)
      simp only [calculateDelay, hcap, Bool.false_eq_true, if_false, h1]
      decide
    show [calculateDelay ⟨2, (1 : ℚ) / 2, 100, 2, false⟩ 1 0] = [1]
    rw [hdel]
  · norm_num [min_def]

/-- Claim C3 (amended): with jitter disabled and the operation failing
retryably through attempt k, the k-th slept delay equals the capped
exponential backoff value passed through Math.round and the final
clamp at zero, max(0, round(min(initialDelay * multiplier^(k-1),
maxDelay))); when initialDelay, multiplier and maxDelay are
non-negative integers this equals min(initialDelay * multiplier^(k-1),
maxDelay) exactly as the claim states. -/
theorem execute_delay_spec {T : Type} (cfg : RetryConfig) (op : ℕ → OpResult T)
    (ctx : Option JSRecord) (rand : ℕ → ℚ) (N k : ℕ)
    (hN : cfg.maxAttempts = (N : ℤ)) (hj : cfg.jitter = false)
    (hk1 : 1 ≤ k) (hkN : k < N)
    (hops : ∀ j, 1 ≤ j → j ≤ k →
      isFailure (op j) = true ∧ isRetryableError (opErrVal op j) = true) :
    (execute cfg op ctx rand).delays[k - 1]? =
      some (max 0 (jsRound (min (cfg.initialDelay * cfg.backoffMultiplier ^ (k - 1))
        cfg.maxDelay))) ∧
    (∀ a b d : ℕ, cfg.initialDelay = (a : ℚ) → cfg.backoffMultiplier = (b : ℚ) →
      cfg.maxDelay = (d : ℚ) →
      (execute cfg op ctx rand).delays[k - 1]? =
        some ((min (a * b ^ (k - 1)) d : ℕ) : ℤ)) := by
  have hadv := executeLoop_advance cfg op ctx rand k (by omega)
    cfg.maxAttempts.toNat 0 [] [] (by omega) (by omega)
    (fun j h1 h2 => hops j (by omega) h2)
  have hdmain : (execute cfg op ctx rand).delays[k - 1]? =
      some (calculateDelay cfg k (rand k)) := by
    rw [execute, hadv]
    obtain ⟨t, ht⟩ := executeLoop_delays_ext cfg op ctx rand
      (cfg.maxAttempts.toNat - (k - 0)) k
      ([] ++ (List.range' (0 + 1) (k - 0)).map (opErrVal op))
      ([] ++ (List.range' (0 + 1) (k - 0)).map (fun j => calculateDelay cfg j (rand j)))
    rw [ht, List.nil_append, List.getElem?_append_left (by simp; omega),
      List.getElem?_map, List.getElem?_range' _ _ (by omega)]
    simp only [Option.map_some']
    rw [show 0 + 1 + 1 * (k - 1) = k from by omega]
  have hjval : calculateDelay cfg k (rand k) =
      max 0 (jsRound (min (cfg.initialDelay * cfg.backoffMultiplier ^ (k - 1))
        cfg.maxDelay)) := by
    simp only [calculateDelay, hj, Bool.false_eq_true, if_false, cappedDelay]
  refine ⟨by rw [hdmain, hjval], ?_⟩
  intro a b d ha hb hd
  rw [hdmain, hjval, ha, hb, hd]
  have hcast : min ((a : ℚ) * (b : ℚ) ^ (k - 1)) (d : ℚ) =
      ((min (a * b ^ (k - 1)) d : ℕ) : ℚ) := by
    rw [Nat.cast_min]
    push_cast
    ring_nf
  rw [hcast, jsRound_natCast]
  rw [max_eq_right (Int.natCast_nonneg _)]

/-- Witness for C3: the second delay under the policy with
initialDelay 2, multiplier 2, maxDelay 100 and jitter off is 4. -/
theorem execute_delay_spec_witness :
    (execute ⟨3, 2, 100, 2, false⟩ opTimeoutFail none (fun _ => 0)).delays[1]? =
      some (max 0 (jsRound (min ((2 : ℚ) * 2 ^ (2 - 1)) 100))) ∧
    (execute ⟨3, 2, 100, 2, false⟩ opTimeoutFail none (fun _ => 0)).delays[1]? =
      some ((min (2 * 2 ^ (2 - 1)) 100 : ℕ) : ℤ) :=
  ⟨(execute_delay_spec ⟨3, 2, 100, 2, false⟩ opTimeoutFail none (fun _ => 0) 3 2 rfl rfl
      (by omega) (by omega) (fun j h1 h2 => ⟨rfl, rfl⟩)).1,
   (execute_delay_spec ⟨3, 2, 100, 2, false⟩ opTimeoutFail none (fun _ => 0) 3 2 rfl rfl
      (by omega) (by omega) (fun j h1 h2 => ⟨rfl, rfl⟩)).2 2 2 100 (by simp)
      (by simp) (by simp)⟩

end EmailRetry
